import Mathlib

/-!
# Verification of the EmotiBit → YQ converter (`emotibit_yq_app.py`)

A shallow embedding of the conversion pipeline of `emotibit_yq_app.py`:
the metadata parser (`load_emotibit_json`), the time-series reshaper
(`parse_emotibit_csv`), the output packager (`write_yq_folder`), the
session matcher (`find_emotibit_sessions`) and the top-level per-session
conversion loop.  Numeric values are modelled as exact rationals (`ℚ`)
and machine integers as `ℤ`; Python's `int()` truncation toward zero,
`round()` half-to-even, slicing with negative bounds, and falsy-`or`
defaults are modelled explicitly.  String manipulation is carried out on
character lists so that every definition evaluates by kernel reduction.
Sorting steps (`pivot_table`/`sort_index`, `list.sort`) are modelled
with a stable insertion sort; Python's sort is also stable, and any two
stable sorts of the same list under the same total preorder agree.
-/

set_option maxRecDepth 100000

namespace EmotibitYQ

/-! ## Python primitives -/

/-- Python `int(x)` applied to a rational: truncation toward zero. -/
def truncToZero (q : ℚ) : ℤ :=
  if 0 ≤ q then ⌊q⌋ else ⌈q⌉

/-- Python `round(x)` applied to a rational: round half to even. -/
def pyRound (q : ℚ) : ℤ :=
  let f : ℤ := ⌊q⌋
  let r : ℚ := q - f
  if r < 1/2 then f
  else if 1/2 < r then f + 1
  else if f % 2 = 0 then f else f + 1

/-- Python slicing `l[:n]` where `n` may be negative:
`l[:n]` keeps the first `n` elements for `n ≥ 0`, and all but the
last `-n` elements for `n < 0` (empty when `-n ≥ len(l)`). -/
def pySlice (l : List α) (n : ℤ) : List α :=
  if 0 ≤ n then l.take n.toNat
  else l.take (l.length - (-n).toNat)

/-- Python `str.strip()`: the string with leading and trailing
whitespace removed. -/
def pyStrip (cs : List Char) : List Char :=
  ((cs.dropWhile Char.isWhitespace).reverse.dropWhile
    Char.isWhitespace).reverse

/-- Python `str.lower()` (the inputs at hand are ASCII). -/
def pyLower (s : String) : String :=
  ⟨s.toList.map Char.toLower⟩

/-- Python `s.startswith(pre)`. -/
def pyStartsWith (s pre : String) : Bool :=
  pre.toList.isPrefixOf s.toList

/-- Python `s.endswith(suf)`. -/
def pyEndsWith (s suf : String) : Bool :=
  suf.toList.isSuffixOf s.toList

/-- Python `s.replace(" ", "")`. -/
def removeSpaces (s : String) : String :=
  ⟨s.toList.filter (fun c => c ≠ ' ')⟩

/-- Python `s.replace(" ", "_")`. -/
def spacesToUnderscores (s : String) : String :=
  ⟨s.toList.map (fun c => if c = ' ' then '_' else c)⟩

/-- The digits of a nonempty decimal numeral read as an integer. -/
def digitsVal (ds : List Char) : ℤ :=
  ds.foldl (fun acc c => 10 * acc + ((c.toNat : ℤ) - 48)) 0

/-- Python `int(s)` on an already-stripped string: optional sign and a
nonempty run of decimal digits (exotic accepted forms such as
underscore separators do not occur in the measurement format). -/
def pyParseInt (s : String) : Option ℤ :=
  let core : List Char → Option ℤ := fun ds =>
    if ds ≠ [] ∧ ds.all Char.isDigit then some (digitsVal ds) else none
  match s.toList with
  | '-' :: rest => (core rest).map (fun n => -n)
  | '+' :: rest => core rest
  | chars => core chars

/-- Python `float(s)` on the plain decimal literals the measurement
format carries: optional sign, digits, optional point and digits
(at least one digit overall); scientific notation, infinities and NaN
do not occur in the measurement format. -/
def pyParseFloat (s : String) : Option ℚ :=
  let core : List Char → Option ℚ := fun ds =>
    match List.splitOn '.' ds with
    | [ip] =>
      if ip ≠ [] ∧ ip.all Char.isDigit then
        some ((digitsVal ip : ℤ) : ℚ)
      else none
    | [ip, fp] =>
      if (ip ≠ [] ∨ fp ≠ []) ∧ ip.all Char.isDigit ∧ fp.all Char.isDigit
      then
        some (((digitsVal ip : ℤ) : ℚ) +
          ((digitsVal fp : ℤ) : ℚ) / ((10 : ℚ) ^ fp.length))
      else none
    | _ => none
  match s.toList with
  | '-' :: rest => (core rest).map (fun q => -q)
  | '+' :: rest => core rest
  | chars => core chars

/-- First index at which `pat` occurs in `s` (Python `str.find` when
the result is non-negative); `none` when `pat` never occurs. -/
def findSubstrIdx (s pat : List Char) : Option Nat :=
  match s with
  | [] => if pat = [] then some 0 else none
  | _ :: rest =>
    if pat.isPrefixOf s then some 0
    else (findSubstrIdx rest pat).map (· + 1)

/-- Python `pat in s` substring containment. -/
def containsSubstr (s pat : String) : Bool :=
  (findSubstrIdx s.toList pat.toList).isSome

/-- Stem of `os.path.splitext(name)`: the name up to its last dot
(the whole name when there is no dot). -/
def splitextStem (name : String) : String :=
  let parts := List.splitOn '.' name.toList
  if parts.length ≤ 1 then name
  else ⟨List.intercalate ['.'] parts.dropLast⟩

/-- Consecutive differences of a list (`Series.diff().dropna()`). -/
def consecDiffs : List ℚ → List ℚ
  | [] => []
  | [_] => []
  | a :: b :: rest => (b - a) :: consecDiffs (b :: rest)

/-- `Series.median()`: middle element of the sorted list, or the mean
of the two middle elements for even length (0 for an empty list,
a case the code guards against). -/
def median (l : List ℚ) : ℚ :=
  let s := l.insertionSort (· ≤ ·)
  let n := l.length
  if n = 0 then 0
  else if n % 2 = 1 then s.getD (n / 2) 0
  else (s.getD (n / 2 - 1) 0 + s.getD (n / 2) 0) / 2

/-- Arithmetic mean of a list of rationals. -/
def listMean (l : List ℚ) : ℚ := l.sum / l.length

/-! ## Data model

A metadata-document entry is modelled by its nested `info` map
(`entry.get("info", {})`); a key absent from the JSON object is `none`.
The JSON values the code reads are strings, string lists and numbers,
so the record carries exactly the fields the code looks up. -/

/-- The `info` map of one metadata-document record. -/
structure InfoRec where
  name : Option String := none
  source_id : Option String := none
  type : Option String := none
  device_id : Option String := none
  created_at : Option String := none
  typeTags : List String := []
  nominal_srate : Option ℚ := none
  units : Option String := none
deriving DecidableEq

/-- A channel descriptor as stored in the `channels` dict
(the code also stores `raw_info`, which no later step reads). -/
structure ChannelMeta where
  label : String
  nominal_srate : Option ℚ := none
  units : Option String := none
deriving DecidableEq

/-- The device metadata with the two derived always-present fields. -/
structure DeviceMeta where
  device_name : String
  device_id : String
  created_at : Option String := none
deriving DecidableEq

/-- One long record: absolute timestamp (ms), channel tag, value. -/
structure LongRecord where
  timestamp : ℤ
  tag : String
  value : ℚ
deriving DecidableEq

/-- Python dict insertion `d[k] = v`: replace the value in place when
the key is present, otherwise append (insertion order preserved). -/
def dictInsert (d : List (String × α)) (k : String) (v : α) :
    List (String × α) :=
  if d.any (fun p => p.1 = k) then
    d.map (fun p => if p.1 = k then (k, v) else p)
  else d ++ [(k, v)]

/-- Python `x or y or …` over optional strings: the first value that is
present and non-empty (`""` is falsy), else the final default. -/
def pyOrStr (opts : List (Option String)) (dflt : String) : String :=
  match opts with
  | [] => dflt
  | o :: rest =>
    match o with
    | some s => if s = "" then pyOrStr rest dflt else s
    | none => pyOrStr rest dflt

/-! ## 1. JSON parsing — `load_emotibit_json` -/

/-- The stream name used for channel labels:
`info.get("name", info.get("type", "Channel"))`. -/
def streamName (info : InfoRec) : String :=
  info.name.getD (info.type.getD "Channel")

/-- The label a stream gives to one of its tags:
`f"{name}_{tag}".replace(" ", "")`. -/
def channelLabel (info : InfoRec) (tag : String) : String :=
  removeSpaces (streamName info ++ "_" ++ tag)

/-- The channel descriptor one stream record stores for one tag. -/
def mkChan (info : InfoRec) (tag : String) : ChannelMeta :=
  { label := channelLabel info tag
    nominal_srate := info.nominal_srate
    units := info.units }

/-- Register the channels of one stream record:
`for tag in tags: channels[tag] = {label, nominal_srate, units, …}`. -/
def registerStream (channels : List (String × ChannelMeta))
    (info : InfoRec) : List (String × ChannelMeta) :=
  info.typeTags.foldl
    (fun acc tag => dictInsert acc tag (mkChan info tag))
    channels

/-- The channel mapping built from all stream records (`data[1:]`). -/
def buildChannels (streams : List InfoRec) :
    List (String × ChannelMeta) :=
  streams.foldl registerStream []

/-- `load_emotibit_json`: fails when the document is empty, otherwise
derives the device name and id from the first record's info and
registers a channel per tag of every later record.  `json_path` only
feeds the error message. -/
def load_emotibit_json (json_path : String) (data : List InfoRec) :
    Except String (DeviceMeta × List (String × ChannelMeta)) :=
  match data with
  | [] => .error (json_path ++ " is empty or invalid")
  | raw_meta :: streams =>
    let device_name :=
      pyOrStr [raw_meta.name, raw_meta.source_id, raw_meta.type]
        "UnknownDevice"
    let device_id :=
      pyOrStr [raw_meta.device_id, raw_meta.source_id]
        (spacesToUnderscores device_name)
    .ok ({ device_name := device_name, device_id := device_id
           created_at := raw_meta.created_at },
         buildChannels streams)

/-! ## 2. CSV parsing — `parse_emotibit_csv` -/

/-- Effective sample rate: `ch_meta.get("nominal_srate") or 25.0`
(`None`, `0` and `0.0` are falsy). -/
def effectiveRate (m : ChannelMeta) : ℚ :=
  match m.nominal_srate with
  | some r => if r = 0 then 25 else r
  | none => 25

/-- Emission of one sample: skip a value `float()` cannot parse,
otherwise stamp it at
`base_ts_ms + int((idx * 1.0 / sr) * 1000.0)`. -/
def emitSample (base_ts_ms : ℤ) (sr : ℚ) (tag : String) (idx : ℕ)
    (val : String) : Option LongRecord :=
  (pyParseFloat val).map fun v =>
    { timestamp := base_ts_ms + truncToZero (((idx : ℚ) / sr) * 1000)
      tag := tag
      value := v }

/-- The comma-split, per-part-stripped fields of a stripped line. -/
def lineFields (line : String) : List String :=
  ((List.splitOn ',' (pyStrip line.toList)).map
    (fun cs => String.mk (pyStrip cs)))

/-- The declared per-line sample count: field `[2]` parsed as an
integer, defaulting to 1 when unparseable. -/
def declaredCount (parts : List String) : ℤ :=
  (pyParseInt (parts.getD 2 "")).getD 1

/-- The records of one line, each paired with its sample index.
Mirrors the per-line body of `parse_emotibit_csv`:
strip, split on commas and trim, skip lines with < 7 fields, skip
lines whose field 0 is not an integer, default the sample count to 1,
skip unknown tags, then emit `values[:n_samples]` one by one.
`baseMs` is the epoch value of `base_dt` in milliseconds, or `none`
when no recording-start timestamp was given. -/
def lineIndexedRecords (channels : List (String × ChannelMeta))
    (baseMs : Option ℤ) (line : String) : List (ℕ × LongRecord) :=
  if pyStrip line.toList = [] then []
  else
    let parts := lineFields line
    if parts.length < 7 then []
    else
      match pyParseInt (parts.getD 0 "") with
      | none => []
      | some system_ms =>
        let tag := parts.getD 3 ""
        let n_samples := declaredCount parts
        let values := parts.drop 6
        match channels.lookup tag with
        | none => []
        | some ch_meta =>
          let sr := effectiveRate ch_meta
          let base_ts_ms : ℤ :=
            match baseMs with
            | some b => b + system_ms
            | none => system_ms
          (pySlice values n_samples).enum.filterMap fun p =>
            (emitSample base_ts_ms sr tag p.1 p.2).map fun r => (p.1, r)

/-- The long records of one line. -/
def lineRecords (channels : List (String × ChannelMeta))
    (baseMs : Option ℤ) (line : String) : List LongRecord :=
  (lineIndexedRecords channels baseMs line).map Prod.snd

/-- All long records of a measurement file, in file order. -/
def longRecords (channels : List (String × ChannelMeta))
    (baseMs : Option ℤ) (lines : List String) : List LongRecord :=
  lines.flatMap (lineRecords channels baseMs)

/-- The wide table's timestamp index: unique timestamps sorted
ascending (`pivot_table` index followed by `sort_index`). -/
def wideIndex (recs : List LongRecord) : List ℤ :=
  ((recs.map LongRecord.timestamp).dedup).insertionSort (· ≤ ·)

/-- The wide table's data columns before renaming: the distinct tags
that appeared, in `pivot_table`'s sorted column order. -/
def wideTagCols (recs : List LongRecord) : List String :=
  ((recs.map LongRecord.tag).dedup).insertionSort (· ≤ ·)

/-- The values grouped at one `(timestamp, tag)` cell. -/
def cellValues (recs : List LongRecord) (t : ℤ) (tag : String) :
    List ℚ :=
  (recs.filter (fun r => r.timestamp = t ∧ r.tag = tag)).map
    LongRecord.value

/-- One cell of the pivot: the mean of the values sharing the
`(timestamp, tag)` pair, `none` (NaN) when no record hit the cell. -/
def wideCell (recs : List LongRecord) (t : ℤ) (tag : String) :
    Option ℚ :=
  match cellValues recs t tag with
  | [] => none
  | vs => some (listMean vs)

/-- The derived `"Time"` column: seconds since the first row. -/
def timeColumn (recs : List LongRecord) : List ℚ :=
  let idx := wideIndex recs
  let first := idx.getD 0 0
  idx.map (fun t => ((t - first : ℤ) : ℚ) / 1000)

/-- The header a tag column carries after the final rename: the
channel label when a descriptor exists, else the raw tag. -/
def renameCol (channels : List (String × ChannelMeta))
    (tag : String) : String :=
  match channels.lookup tag with
  | some m => m.label
  | none => tag

/-- The wide table's data-column headers after renaming. -/
def renamedCols (channels : List (String × ChannelMeta))
    (recs : List LongRecord) : List String :=
  (wideTagCols recs).map (renameCol channels)

/-! ## 3. YQ writer — `write_yq_folder` -/

/-- The fragment of the device table the packager reads back: its row
count (`len(device_df)`) and its `"Time"` column when present. -/
structure DeviceTable where
  nRows : ℕ
  time : Option (List ℚ)
deriving DecidableEq

/-- The device table the reshaper hands to the packager: when no long
record survived the table has no rows and no `"Time"` column, else one
row per index entry and the derived `"Time"` column. -/
def deviceTableOf (recs : List LongRecord) : DeviceTable :=
  { nRows := (wideIndex recs).length
    time := if recs = [] then none else some (timeColumn recs) }

/-- The `sampling_rate_guess` computation of `write_yq_folder`:
`0`, unless a `"Time"` column exists, the table has more than one row,
and the median of the consecutive `"Time"` differences is positive, in
which case `round(1.0 / diffs.median())`. -/
def sampling_rate_guess (df : DeviceTable) : ℤ :=
  match df.time with
  | none => 0
  | some ts =>
    if 1 < df.nRows then
      let diffs := consecDiffs ts
      if diffs ≠ [] ∧ 0 < median diffs then pyRound (1 / median diffs)
      else 0
    else 0

/-- The one-row metadata index `metadata.csv` plus the device CSV
name — the data `write_yq_folder` writes (README text aside). -/
structure YqFolder where
  device_csv_name : String
  recording_id : String
  device_id : String
  device_name : String
  rec_type : String
  sampling_rate : ℤ
deriving DecidableEq

/-- `write_yq_folder`: derive the file stub from the device id
(lowercased, spaces to underscores) and fill the metadata row.  The
`device_meta.get` fallbacks for the dunder keys are dead paths here:
the pipeline always passes the descriptor built by
`load_emotibit_json`, which carries both derived fields. -/
def write_yq_folder (device_df : DeviceTable)
    (device_meta : DeviceMeta) : YqFolder :=
  let device_id := device_meta.device_id
  let device_name := device_meta.device_name
  let fn_stub := spacesToUnderscores (pyLower device_id)
  let device_csv_name := fn_stub ++ "_device.csv"
  { device_csv_name := device_csv_name
    recording_id := device_id ++ " : device"
    device_id := device_id
    device_name := device_name
    rec_type := "physio"
    sampling_rate := sampling_rate_guess device_df }

/-! ## 4. Robust matcher — `find_emotibit_sessions` -/

/-- One file of the walked tree: the directory part of its path and
its basename. -/
structure FEntry where
  dir : String
  name : String
deriving DecidableEq

/-- One matched session: metadata path, measurement path, name. -/
structure SessionPair where
  json : FEntry
  csv : FEntry
  name : String
deriving DecidableEq

/-- The comparison `candidates.sort(key=len ∘ basename)` sorts by. -/
def nameLenLe (a b : FEntry) : Prop :=
  a.name.length ≤ b.name.length

instance : DecidableRel nameLenLe :=
  fun a b => Nat.decLe a.name.length b.name.length

instance : IsTotal FEntry nameLenLe :=
  ⟨fun a b => Nat.le_total a.name.length b.name.length⟩

instance : IsTrans FEntry nameLenLe :=
  ⟨fun _ _ _ => Nat.le_trans⟩

/-- Metadata candidate: not under a `__MACOSX` directory, not a
dot-underscore shadow file, `.json` extension and an `"_info"` marker
(both case-insensitively). -/
def isJsonCandidate (e : FEntry) : Bool :=
  ¬ containsSubstr e.dir "__MACOSX" ∧ ¬ pyStartsWith e.name "._" ∧
    pyEndsWith (pyLower e.name) ".json" ∧
    containsSubstr (pyLower e.name) "_info"

/-- Measurement candidate: the `elif` branch — not a metadata
candidate's condition, `.csv` extension (case-insensitively). -/
def isCsvCandidate (e : FEntry) : Bool :=
  ¬ containsSubstr e.dir "__MACOSX" ∧ ¬ pyStartsWith e.name "._" ∧
    ¬ (pyEndsWith (pyLower e.name) ".json" ∧
       containsSubstr (pyLower e.name) "_info") ∧
    pyEndsWith (pyLower e.name) ".csv"

/-- The measurement candidates whose stem starts with `base_key`. -/
def csvCandidatesFor (csvs : List FEntry) (base_key : String) :
    List FEntry :=
  csvs.filter (fun c => pyStartsWith (splitextStem c.name) base_key)

/-- The base key of a metadata candidate: its stem truncated at the
position of the (lowercased) `"_info"` marker; `none` when the marker
is absent. -/
def sessionBaseKey (j : FEntry) : Option String :=
  match findSubstrIdx (pyLower (splitextStem j.name)).toList
      "_info".toList with
  | none => none
  | some idx => some ⟨(splitextStem j.name).toList.take idx⟩

/-- The session one metadata candidate yields: truncate the stem at
the (lowercased) `"_info"` marker, collect the matching measurement
candidates, and pick the one with the shortest basename (stable
sort by length, first element). -/
def sessionFor (csvs : List FEntry) (j : FEntry) : Option SessionPair :=
  match sessionBaseKey j with
  | none => none
  | some base_key =>
    match (csvCandidatesFor csvs base_key).insertionSort nameLenLe with
    | [] => none
    | c :: _ => some ⟨j, c, base_key⟩

/-- `find_emotibit_sessions` over the walked file list. -/
def find_emotibit_sessions (files : List FEntry) : List SessionPair :=
  (files.filter isJsonCandidate).filterMap
    (sessionFor (files.filter isCsvCandidate))

/-! ## 5. The per-session conversion loop

The loop body of the `MAIN LOGIC` block: for every discovered session,
parse its metadata document, reshape its measurement file and write a
YQ folder.  The whole loop runs inside one `try`, so the first raised
exception (for example `load_emotibit_json`'s `ValueError`) abandons
every session and no output archive is offered.  `strpMs` abstracts
`datetime.strptime(created_at, …).timestamp() * 1000`, the epoch value
of the recording-start instant, which the claims never evaluate. -/

/-- One discovered session with its file contents. -/
structure Session where
  json_path : String
  doc : List InfoRec
  lines : List String
  name : String

/-- One session's conversion result. -/
structure SessionOutput where
  name : String
  records : List LongRecord
  folder : YqFolder

/-- The base timestamp `parse_emotibit_csv` derives:
`if device_created_at:` is falsy for both `None` and `""`. -/
def baseMsOf (strpMs : String → ℤ) (created_at : Option String) :
    Option ℤ :=
  match created_at with
  | some s => if s = "" then none else some (strpMs s)
  | none => none

/-- The conversion loop: sessions in order, each loading metadata,
reshaping and writing; a failure propagates and discards every
output. -/
def convert_sessions (strpMs : String → ℤ) :
    List Session → Except String (List SessionOutput)
  | [] => .ok []
  | s :: rest => do
    let (device_meta, channels) ← load_emotibit_json s.json_path s.doc
    let recs := longRecords channels
      (baseMsOf strpMs device_meta.created_at) s.lines
    let out : SessionOutput :=
      ⟨s.name, recs, write_yq_folder (deviceTableOf recs) device_meta⟩
    let outs ← convert_sessions strpMs rest
    .ok (out :: outs)

/-! ## Concrete fixtures used by scenario theorems and witnesses -/

/-- The channel mapping of the C1 scenario: tag `"AA"`, label
`"Accelerometer_AA"`, nominal sample rate 25. -/
def accelChannels : List (String × ChannelMeta) :=
  [("AA", { label := "Accelerometer_AA", nominal_srate := some 25 })]

/-- A well-formed two-record metadata document declaring stream
`"Accelerometer"` with tag `"AA"` at 25 Hz. -/
def goodDoc : List InfoRec :=
  [{ name := some "EmotiBit" },
   { name := some "Accelerometer", typeTags := ["AA"],
     nominal_srate := some 25 }]

/-- A session whose metadata document parses and whose measurement
file yields records. -/
def goodSession : Session :=
  ⟨"good_info.json", goodDoc, ["1000,x,1,AA,x,x,0.5"], "good"⟩

/-- A session whose metadata document is the empty array, which makes
`load_emotibit_json` raise. -/
def badSession : Session :=
  ⟨"bad_info.json", [], ["1000,x,1,AA,x,x,0.5"], "bad"⟩

/-! ## General lemmas -/

/-- A successful association-list lookup yields a member. -/
theorem lookup_mem {l : List (String × α)} {a : String} {b : α}
    (h : l.lookup a = some b) : (a, b) ∈ l := by
  induction l with
  | nil => simp [List.lookup] at h
  | cons p rest ih =>
    obtain ⟨k, v⟩ := p
    rw [List.lookup] at h
    rcases hak : (a == k) with _ | _
    · rw [hak] at h
      exact List.mem_cons_of_mem _ (ih h)
    · rw [hak] at h
      obtain rfl : v = b := by injection h
      obtain rfl : a = k := eq_of_beq hak
      exact List.mem_cons_self _ _

/-- A member of `dictInsert d k v` is a member of `d` or `(k, v)`. -/
theorem dictInsert_mem {d : List (String × α)} {k : String} {v : α}
    {p : String × α} (h : p ∈ dictInsert d k v) :
    p ∈ d ∨ p = (k, v) := by
  unfold dictInsert at h
  split at h
  · obtain ⟨q, hq, hpq⟩ := List.mem_map.mp h
    by_cases hk : q.1 = k
    · rw [if_pos hk] at hpq
      exact Or.inr hpq.symm
    · rw [if_neg hk] at hpq
      exact Or.inl (hpq ▸ hq)
  · rcases List.mem_append.mp h with h1 | h2
    · exact Or.inl h1
    · exact Or.inr (by simpa using h2)

/-- A member of one stream's channel registrations either predates the
stream or is one of the stream's own tag entries. -/
theorem registerStream_mem (info : InfoRec) :
    ∀ (tags : List String) (acc : List (String × ChannelMeta))
      (p : String × ChannelMeta),
      p ∈ tags.foldl (fun a tag => dictInsert a tag (mkChan info tag))
            acc →
      p ∈ acc ∨ ∃ tag ∈ tags, p = (tag, mkChan info tag) := by
  intro tags
  induction tags with
  | nil => exact fun acc p h => Or.inl h
  | cons t ts ih =>
    intro acc p h
    rw [List.foldl_cons] at h
    rcases ih _ p h with hacc | ⟨tag, htag, rfl⟩
    · rcases dictInsert_mem hacc with h1 | h2
      · exact Or.inl h1
      · exact Or.inr ⟨t, List.mem_cons_self _ _, h2⟩
    · exact Or.inr ⟨tag, List.mem_cons_of_mem _ htag, rfl⟩

/-- Every registered channel originates from some stream record: its
key is one of that stream's tags and its descriptor is the one that
stream builds. -/
theorem buildChannels_mem :
    ∀ (streams : List InfoRec) (acc : List (String × ChannelMeta))
      (p : String × ChannelMeta),
      p ∈ streams.foldl registerStream acc →
      p ∈ acc ∨
        ∃ info ∈ streams, p.1 ∈ info.typeTags ∧ p.2 = mkChan info p.1 := by
  intro streams
  induction streams with
  | nil => exact fun acc p h => Or.inl h
  | cons st sts ih =>
    intro acc p h
    rw [List.foldl_cons] at h
    rcases ih _ p h with hacc | ⟨info, hinfo, h1, h2⟩
    · rcases registerStream_mem st st.typeTags acc p hacc with h1 | h2
      · exact Or.inl h1
      · obtain ⟨tag, htag, rfl⟩ := h2
        exact Or.inr ⟨st, List.mem_cons_self _ _, htag, rfl⟩
    · exact Or.inr ⟨info, List.mem_cons_of_mem _ hinfo, h1, h2⟩

/-- The descriptor a tag looks up in the built channel mapping was
built by some stream that lists the tag. -/
theorem channel_origin {streams : List InfoRec} {tag : String}
    {meta : ChannelMeta}
    (h : (buildChannels streams).lookup tag = some meta) :
    ∃ info ∈ streams, tag ∈ info.typeTags ∧ meta = mkChan info tag := by
  have hm := lookup_mem h
  rw [buildChannels] at hm
  rcases buildChannels_mem streams [] (tag, meta) hm with h0 | h1
  · simp at h0
  · exact h1

/-- Let-free unfolding of `lineIndexedRecords`, for case analysis. -/
theorem lineIndexedRecords_eq (channels : List (String × ChannelMeta))
    (baseMs : Option ℤ) (line : String) :
    lineIndexedRecords channels baseMs line =
      if pyStrip line.toList = [] then []
      else if (lineFields line).length < 7 then []
      else
        match pyParseInt ((lineFields line).getD 0 "") with
        | none => []
        | some system_ms =>
          match channels.lookup ((lineFields line).getD 3 "") with
          | none => []
          | some ch_meta =>
            (pySlice ((lineFields line).drop 6)
                (declaredCount (lineFields line))).enum.filterMap fun p =>
              (emitSample
                (match baseMs with
                  | some b => b + system_ms
                  | none => system_ms)
                (effectiveRate ch_meta)
                ((lineFields line).getD 3 "") p.1 p.2).map
                fun r => (p.1, r) := rfl

/-- A slice `l[:n]` never exceeds the list. -/
theorem pySlice_length_le (l : List α) (n : ℤ) :
    (pySlice l n).length ≤ l.length := by
  unfold pySlice
  split <;> (rw [List.length_take]; exact inf_le_right)

/-- A nonnegative slice `l[:n]` keeps at most `n` elements. -/
theorem pySlice_length_le_toNat (l : List α) {n : ℤ} (hn : 0 ≤ n) :
    (pySlice l n).length ≤ n.toNat := by
  unfold pySlice
  rw [if_pos hn, List.length_take]
  exact inf_le_left

/-- The index of an `enum` member is below the list's length. -/
theorem enum_fst_lt {l : List α} {p : ℕ × α} (h : p ∈ l.enum) :
    p.1 < l.length := by
  have h2 : p.1 ∈ l.enum.map Prod.fst := List.mem_map_of_mem _ h
  rw [List.enum_map_fst] at h2
  exact List.mem_range.mp h2

/-- Unfolding of one conversion-loop iteration. -/
theorem convert_sessions_cons (strpMs : String → ℤ) (p : Session)
    (ss : List Session) :
    convert_sessions strpMs (p :: ss) =
      (load_emotibit_json p.json_path p.doc).bind (fun dc =>
        (convert_sessions strpMs ss).bind (fun outs =>
          .ok (⟨p.name,
                longRecords dc.2 (baseMsOf strpMs dc.1.created_at)
                  p.lines,
                write_yq_folder
                  (deviceTableOf
                    (longRecords dc.2 (baseMsOf strpMs dc.1.created_at)
                      p.lines))
                  dc.1⟩ :: outs))) := rfl

/-- `Except.bind` on an error short-circuits. -/
theorem except_bind_error (e : ε) (f : α → Except ε β) :
    (Except.error e).bind f = .error e := rfl

/-- `Except.bind` on a success applies the continuation. -/
theorem except_bind_ok (a : α) (f : α → Except ε β) :
    (Except.ok a : Except ε α).bind f = f a := rfl

/-- A failing metadata load anywhere in the session list makes the
whole conversion loop fail. -/
theorem convert_sessions_error_of_load_error (strpMs : String → ℤ)
    (pre post : List Session) (s : Session)
    (he : ∃ msg, load_emotibit_json s.json_path s.doc = .error msg) :
    ∃ e, convert_sessions strpMs (pre ++ s :: post) = .error e := by
  obtain ⟨msg, hmsg⟩ := he
  induction pre with
  | nil =>
    refine ⟨msg, ?_⟩
    rw [List.nil_append, convert_sessions_cons, hmsg, except_bind_error]
  | cons p rest ih =>
    obtain ⟨e, he2⟩ := ih
    cases hload : load_emotibit_json p.json_path p.doc with
    | error e2 =>
      refine ⟨e2, ?_⟩
      rw [List.cons_append, convert_sessions_cons, hload, except_bind_error]
    | ok pr =>
      refine ⟨e, ?_⟩
      rw [List.cons_append, convert_sessions_cons, hload, except_bind_ok,
        he2, except_bind_error]

end EmotibitYQ

namespace EmotibitYQ

/-! ## Claim theorems -/

/-- C1: with a channel mapping holding tag `"AA"`, label
`"Accelerometer_AA"` and nominal rate 25, the line
`"1000,x,2,AA,x,x,0.1,0.2"` processed with no recording-start
timestamp yields exactly two long records, at absolute milliseconds
1000 with value 0.1 and 1040 with value 0.2, and the wide table's one
data column is named `"Accelerometer_AA"`. -/
theorem scenario_two_samples_at_25hz :
    longRecords accelChannels none ["1000,x,2,AA,x,x,0.1,0.2"] =
      [⟨1000, "AA", 1/10⟩, ⟨1040, "AA", 1/5⟩] ∧
    renamedCols accelChannels
        (longRecords accelChannels none ["1000,x,2,AA,x,x,0.1,0.2"]) =
      ["Accelerometer_AA"] := by
  with_unfolding_all decide

/-- C6: `load_emotibit_json` fails on the empty document with the
`"… is empty or invalid"` error, and any conversion batch containing a
session with an empty metadata document aborts with an error — no
output list is produced. -/
theorem empty_metadata_aborts (path : String) (strpMs : String → ℤ)
    (lines : List String) (nm : String) (pre post : List Session) :
    load_emotibit_json path [] =
      .error (path ++ " is empty or invalid") ∧
    ∃ e, convert_sessions strpMs
        (pre ++ (⟨path, [], lines, nm⟩ : Session) :: post) = .error e := by
  refine ⟨rfl, ?_⟩
  exact convert_sessions_error_of_load_error strpMs pre post _
    ⟨path ++ " is empty or invalid", rfl⟩

/-- C4 counterexample: a batch of a failing session followed by a good
session yields an error overall — no output folder for the good
session is produced — even though the good session alone converts
successfully.  This refutes the claim that a failure while converting
one session does not affect the other sessions. -/
theorem session_failure_counterexample :
    convert_sessions (fun _ => 0) [badSession, goodSession] =
      .error "bad_info.json is empty or invalid" ∧
    (convert_sessions (fun _ => 0) [goodSession]).isOk = true := by
  constructor
  · with_unfolding_all rfl
  · with_unfolding_all rfl

/-- C4 amended: sessions are converted in one fail-fast loop: a
session whose metadata document fails to load makes the whole batch
fail, and no session outputs at all are produced. -/
theorem session_failure_aborts_batch (strpMs : String → ℤ)
    (pre post : List Session) (s : Session)
    (he : ∃ msg, load_emotibit_json s.json_path s.doc = .error msg) :
    ∃ e, convert_sessions strpMs (pre ++ s :: post) = .error e :=
  convert_sessions_error_of_load_error strpMs pre post s he

/-- C4 amended, witness: the concrete two-session batch of
`session_failure_counterexample`, through the amended theorem. -/
theorem session_failure_aborts_batch_witness :
    ∃ e, convert_sessions (fun _ => 0)
        ([goodSession] ++ badSession :: []) = .error e :=
  session_failure_aborts_batch (fun _ => 0) [goodSession] [] badSession
    ⟨"bad_info.json is empty or invalid", by with_unfolding_all rfl⟩

/-- C10: a line with `p` fields yields at most `p - 6` long records,
whatever the declared sample count says: the emission loop can never
read past the value fields actually present. -/
theorem line_records_bounded_by_fields
    (channels : List (String × ChannelMeta)) (baseMs : Option ℤ)
    (line : String) :
    (lineRecords channels baseMs line).length ≤
      (lineFields line).length - 6 := by
  rw [lineRecords, List.length_map, lineIndexedRecords_eq]
  split
  · simp
  · split
    · simp
    · split
      · simp
      · split
        · simp
        · calc (((pySlice ((lineFields line).drop 6)
                    (declaredCount (lineFields line))).enum).filterMap
                  _).length
              ≤ ((pySlice ((lineFields line).drop 6)
                    (declaredCount (lineFields line))).enum).length :=
                List.length_filterMap_le _ _
            _ = (pySlice ((lineFields line).drop 6)
                    (declaredCount (lineFields line))).length :=
                List.enum_length
            _ ≤ ((lineFields line).drop 6).length :=
                pySlice_length_le _ _
            _ = (lineFields line).length - 6 := List.length_drop _ _

/-- C8 counterexample: on the line `"1000,x,-1,AA,x,x,1,2,3,4,5"` the
declared sample count parses to −1, yet four samples are emitted, at
indices 0…3 — all of which are at or beyond the declared count, since
Python's `values[:-1]` keeps all but the last value rather than
nothing. -/
theorem negative_count_emits_counterexample :
    declaredCount (lineFields "1000,x,-1,AA,x,x,1,2,3,4,5") = -1 ∧
    (lineIndexedRecords accelChannels none
        "1000,x,-1,AA,x,x,1,2,3,4,5").map Prod.fst = [0, 1, 2, 3] ∧
    ∃ p ∈ lineIndexedRecords accelChannels none
        "1000,x,-1,AA,x,x,1,2,3,4,5",
      declaredCount (lineFields "1000,x,-1,AA,x,x,1,2,3,4,5") ≤
        (p.1 : ℤ) := by
  with_unfolding_all decide

/-- C8 amended: for every line whose declared sample count (field [2])
is nonnegative, no sample whose index is at or beyond the declared
count is ever emitted, even when more raw value fields are present. -/
theorem no_sample_beyond_nonneg_count
    (channels : List (String × ChannelMeta)) (baseMs : Option ℤ)
    (line : String)
    (hn : 0 ≤ declaredCount (lineFields line)) :
    ∀ p ∈ lineIndexedRecords channels baseMs line,
      (p.1 : ℤ) < declaredCount (lineFields line) := by
  intro p hp
  rw [lineIndexedRecords_eq] at hp
  split at hp
  · simp at hp
  · split at hp
    · simp at hp
    · split at hp
      · simp at hp
      · split at hp
        · simp at hp
        · obtain ⟨q, hq, hfq⟩ := List.mem_filterMap.mp hp
          obtain ⟨r, _, hr⟩ := Option.map_eq_some'.mp hfq
          have hp1 : p.1 = q.1 := by rw [← hr]
          have hlt := enum_fst_lt hq
          have hle := pySlice_length_le_toNat
            ((lineFields line).drop 6) hn
          have : p.1 < (declaredCount (lineFields line)).toNat := by
            omega
          calc (p.1 : ℤ) < ((declaredCount (lineFields line)).toNat : ℤ) :=
                by exact_mod_cast this
            _ = declaredCount (lineFields line) :=
                Int.toNat_of_nonneg hn

/-- C8 amended, witness: with 5 value fields and a declared count of
2, exactly the first 2 values are emitted (indices 0 and 1), and both
are below the declared count. -/
theorem no_sample_beyond_nonneg_count_witness :
    (lineIndexedRecords accelChannels none
        "1000,x,2,AA,x,x,1,2,3,4,5").map Prod.fst = [0, 1] ∧
    ∀ p ∈ lineIndexedRecords accelChannels none
        "1000,x,2,AA,x,x,1,2,3,4,5",
      (p.1 : ℤ) < declaredCount (lineFields "1000,x,2,AA,x,x,1,2,3,4,5") :=
  ⟨by with_unfolding_all decide,
   no_sample_beyond_nonneg_count accelChannels none
     "1000,x,2,AA,x,x,1,2,3,4,5" (by with_unfolding_all decide)⟩

/-- C9: every emitted sample with base timestamp `b`, index `i` and
positive effective rate `sr` is stamped `b + int((i / sr) * 1000)`;
the truncation toward zero coincides with the floor for this
nonnegative offset, so the stored offset exceeds the exact offset by
less than one millisecond downward and never rounds up. -/
theorem sample_offset_truncates (base : ℤ) (sr : ℚ) (tag : String)
    (idx : ℕ) (val : String) (r : LongRecord) (hsr : 0 < sr)
    (h : emitSample base sr tag idx val = some r) :
    r.timestamp = base + truncToZero (((idx : ℚ) / sr) * 1000) ∧
    truncToZero (((idx : ℚ) / sr) * 1000) =
      ⌊((idx : ℚ) / sr) * 1000⌋ ∧
    ((r.timestamp - base : ℤ) : ℚ) ≤ ((idx : ℚ) / sr) * 1000 ∧
    ((idx : ℚ) / sr) * 1000 - 1 < ((r.timestamp - base : ℤ) : ℚ) := by
  have hq : (0 : ℚ) ≤ ((idx : ℚ) / sr) * 1000 := by positivity
  obtain ⟨v, _, hr⟩ := Option.map_eq_some'.mp h
  have hts : r.timestamp = base + truncToZero (((idx : ℚ) / sr) * 1000) := by
    rw [← hr]
  have htr : truncToZero (((idx : ℚ) / sr) * 1000) =
      ⌊((idx : ℚ) / sr) * 1000⌋ := by
    unfold truncToZero
    rw [if_pos hq]
  refine ⟨hts, htr, ?_, ?_⟩
  · rw [hts, htr]
    push_cast
    have := Int.floor_le (((idx : ℚ) / sr) * 1000)
    linarith
  · rw [hts, htr]
    push_cast
    have := Int.lt_floor_add_one (((idx : ℚ) / sr) * 1000)
    linarith

/-- C9 witness: base 0, rate 25, index 1, value `"1"`: the sample is
stamped at 40 ms, the floor of the exact offset 40. -/
theorem sample_offset_truncates_witness :
    emitSample 0 25 "AA" 1 "1" = some ⟨40, "AA", 1⟩ ∧
    ((⟨40, "AA", 1⟩ : LongRecord).timestamp = 0 +
        truncToZero (((1 : ℕ) : ℚ) / 25 * 1000) ∧
      truncToZero (((1 : ℕ) : ℚ) / 25 * 1000) =
        ⌊((1 : ℕ) : ℚ) / 25 * 1000⌋ ∧
      (((⟨40, "AA", 1⟩ : LongRecord).timestamp - 0 : ℤ) : ℚ) ≤
        ((1 : ℕ) : ℚ) / 25 * 1000 ∧
      ((1 : ℕ) : ℚ) / 25 * 1000 - 1 <
        (((⟨40, "AA", 1⟩ : LongRecord).timestamp - 0 : ℤ) : ℚ)) :=
  ⟨by with_unfolding_all rfl,
   sample_offset_truncates 0 25 "AA" 1 "1" ⟨40, "AA", 1⟩ (by norm_num)
     (by with_unfolding_all rfl)⟩

end EmotibitYQ

namespace EmotibitYQ

/-! ## Pivot lemmas -/

/-- The wide index is sorted with duplicates removed, hence strictly
increasing. -/
theorem wideIndex_sorted (recs : List LongRecord) :
    (wideIndex recs).Sorted (· < ·) := by
  have hs := List.sorted_insertionSort (· ≤ ·)
    ((recs.map LongRecord.timestamp).dedup)
  have hn : (((recs.map LongRecord.timestamp).dedup).insertionSort
      (· ≤ ·)).Nodup :=
    ((List.perm_insertionSort _ _).nodup_iff).mpr (List.nodup_dedup _)
  exact hs.lt_of_le hn

/-- The wide index has no duplicate rows. -/
theorem wideIndex_nodup (recs : List LongRecord) :
    (wideIndex recs).Nodup :=
  ((List.perm_insertionSort _ _).nodup_iff).mpr (List.nodup_dedup _)

/-- The wide index holds exactly the record timestamps. -/
theorem mem_wideIndex (recs : List LongRecord) (t : ℤ) :
    t ∈ wideIndex recs ↔ t ∈ recs.map LongRecord.timestamp := by
  unfold wideIndex
  rw [(List.perm_insertionSort _ _).mem_iff, List.mem_dedup]

/-- The wide table has no duplicate data columns. -/
theorem wideTagCols_nodup (recs : List LongRecord) :
    (wideTagCols recs).Nodup :=
  ((List.perm_insertionSort _ _).nodup_iff).mpr (List.nodup_dedup _)

/-- The data columns are exactly the tags that appeared. -/
theorem mem_wideTagCols (recs : List LongRecord) (tag : String) :
    tag ∈ wideTagCols recs ↔ tag ∈ recs.map LongRecord.tag := by
  unfold wideTagCols
  rw [(List.perm_insertionSort _ _).mem_iff, List.mem_dedup]

/-- A hit cell carries the mean of its grouped values. -/
theorem wideCell_of_ne_nil {recs : List LongRecord} {t : ℤ}
    {tag : String} (h : cellValues recs t tag ≠ []) :
    wideCell recs t tag = some (listMean (cellValues recs t tag)) := by
  unfold wideCell
  cases hc : cellValues recs t tag with
  | nil => exact absurd hc h
  | cons a l => rfl

/-- C2: whenever the reshaper produces a non-empty record set, the
wide table's timestamp index is strictly increasing with one row per
unique record timestamp and no duplicate rows or columns, and every
populated cell holds the arithmetic mean of the long-record values
sharing its (timestamp, tag) pair. -/
theorem pivot_invariants (channels : List (String × ChannelMeta))
    (baseMs : Option ℤ) (lines : List String)
    (_hne : longRecords channels baseMs lines ≠ []) :
    (wideIndex (longRecords channels baseMs lines)).Sorted (· < ·) ∧
    (wideIndex (longRecords channels baseMs lines)).Nodup ∧
    (wideTagCols (longRecords channels baseMs lines)).Nodup ∧
    (∀ t : ℤ, t ∈ wideIndex (longRecords channels baseMs lines) ↔
      ∃ r ∈ longRecords channels baseMs lines, r.timestamp = t) ∧
    (∀ (t : ℤ) (tag : String),
      cellValues (longRecords channels baseMs lines) t tag ≠ [] →
      wideCell (longRecords channels baseMs lines) t tag =
        some (listMean
          (cellValues (longRecords channels baseMs lines) t tag))) := by
  refine ⟨wideIndex_sorted _, wideIndex_nodup _, wideTagCols_nodup _,
    ?_, ?_⟩
  · intro t
    rw [mem_wideIndex, List.mem_map]
  · intro t tag h
    exact wideCell_of_ne_nil h

/-- C2 witness: the C1 scenario records are non-empty and their wide
index is strictly increasing. -/
theorem pivot_invariants_witness :
    longRecords accelChannels none ["1000,x,2,AA,x,x,0.1,0.2"] ≠ [] ∧
    (wideIndex (longRecords accelChannels none
      ["1000,x,2,AA,x,x,0.1,0.2"])).Sorted (· < ·) :=
  ⟨by with_unfolding_all decide,
   (pivot_invariants accelChannels none ["1000,x,2,AA,x,x,0.1,0.2"]
     (by with_unfolding_all decide)).1⟩

/-- C3: every channel tag registered from the metadata document and
carried by at least one surviving sample appears as exactly one data
column of the wide table, renamed to the channel label, which is the
registering stream's name joined to the tag by an underscore with all
spaces removed. -/
theorem registered_tag_has_one_labelled_column (path : String)
    (data : List InfoRec) (dm : DeviceMeta)
    (channels : List (String × ChannelMeta)) (baseMs : Option ℤ)
    (lines : List String) (tag : String) (meta : ChannelMeta)
    (hload : load_emotibit_json path data = .ok (dm, channels))
    (hlk : channels.lookup tag = some meta)
    (hused : tag ∈ (longRecords channels baseMs lines).map
      LongRecord.tag) :
    List.count tag (wideTagCols (longRecords channels baseMs lines)) = 1 ∧
    renameCol channels tag = meta.label ∧
    ∃ info ∈ data.drop 1, tag ∈ info.typeTags ∧
      meta.label = removeSpaces (streamName info ++ "_" ++ tag) := by
  cases data with
  | nil => simp [load_emotibit_json] at hload
  | cons raw streams =>
    have hch : channels = buildChannels streams := by
      simp only [load_emotibit_json, Except.ok.injEq, Prod.mk.injEq]
        at hload
      exact hload.2.symm
    refine ⟨List.count_eq_one_of_mem (wideTagCols_nodup _)
      ((mem_wideTagCols _ _).mpr hused), ?_, ?_⟩
    · rw [renameCol, hlk]
    · rw [hch] at hlk
      obtain ⟨info, hinfo, htag, hmeta⟩ := channel_origin hlk
      exact ⟨info, by simpa using hinfo, htag, by rw [hmeta]; rfl⟩

/-- C3 witness: loading `goodDoc` registers `"AA"` with label
`"Accelerometer_AA"`; a file using `"AA"` yields exactly one column
for it, renamed accordingly. -/
theorem registered_tag_witness :
    List.count "AA" (wideTagCols (longRecords accelChannels none
      ["1000,x,1,AA,x,x,0.5"])) = 1 ∧
    renameCol accelChannels "AA" = "Accelerometer_AA" ∧
    ∃ info ∈ goodDoc.drop 1, "AA" ∈ info.typeTags ∧
      "Accelerometer_AA" = removeSpaces (streamName info ++ "_" ++ "AA") :=
  registered_tag_has_one_labelled_column "good_info.json" goodDoc
    ⟨"EmotiBit", "EmotiBit", none⟩ accelChannels none
    ["1000,x,1,AA,x,x,0.5"] "AA" ⟨"Accelerometer_AA", some 25, none⟩
    (by with_unfolding_all rfl) (by with_unfolding_all rfl)
    (by with_unfolding_all decide)

end EmotibitYQ

namespace EmotibitYQ

/-! ## Matcher lemmas -/

/-- C5: every session the matcher emits pairs its metadata file with a
measurement candidate of its base key whose filename is shortest among
all such candidates. -/
theorem matcher_picks_shortest_candidate (files : List FEntry)
    (s : SessionPair) (hs : s ∈ find_emotibit_sessions files) :
    s.csv ∈ csvCandidatesFor (files.filter isCsvCandidate) s.name ∧
    ∀ c ∈ csvCandidatesFor (files.filter isCsvCandidate) s.name,
      s.csv.name.length ≤ c.name.length := by
  obtain ⟨j, hj, hsf⟩ := List.mem_filterMap.mp hs
  unfold sessionFor at hsf
  cases hbk : sessionBaseKey j with
  | none => simp [hbk] at hsf
  | some bk =>
    simp only [hbk] at hsf
    cases hsort : (csvCandidatesFor (files.filter isCsvCandidate)
        bk).insertionSort nameLenLe with
    | nil => simp [hsort] at hsf
    | cons c rest =>
      simp only [hsort] at hsf
      obtain rfl : (⟨j, c, bk⟩ : SessionPair) = s := by injection hsf
      have hperm := List.perm_insertionSort nameLenLe
        (csvCandidatesFor (files.filter isCsvCandidate) bk)
      rw [hsort] at hperm
      have hsorted := List.sorted_insertionSort nameLenLe
        (csvCandidatesFor (files.filter isCsvCandidate) bk)
      rw [hsort] at hsorted
      refine ⟨hperm.mem_iff.mp (List.mem_cons_self _ _), ?_⟩
      intro cand hcand
      rcases List.mem_cons.mp (hperm.mem_iff.mpr hcand) with rfl | hmem
      · exact le_refl _
      · exact List.rel_of_sorted_cons hsorted _ hmem

/-- The flat file listing of the C5 scenario: one metadata candidate
and two measurement candidates sharing its base key. -/
def dev001Files : List FEntry :=
  [⟨"", "dev001_info.json"⟩, ⟨"", "dev001.csv"⟩, ⟨"", "dev001_1.csv"⟩]

/-- C5 witness: with candidates `dev001.csv` and `dev001_1.csv` both
matching base key `dev001`, the matcher selects `dev001.csv`, whose
name length is minimal among the candidates. -/
theorem matcher_picks_shortest_witness :
    find_emotibit_sessions dev001Files =
      [⟨⟨"", "dev001_info.json"⟩, ⟨"", "dev001.csv"⟩, "dev001"⟩] ∧
    ∀ c ∈ csvCandidatesFor (dev001Files.filter isCsvCandidate)
        "dev001",
      ("dev001.csv" : String).length ≤ c.name.length :=
  ⟨by with_unfolding_all decide,
   (matcher_picks_shortest_candidate dev001Files
     ⟨⟨"", "dev001_info.json"⟩, ⟨"", "dev001.csv"⟩, "dev001"⟩
     (by with_unfolding_all decide)).2⟩

/-! ## Sampling-rate lemmas -/

/-- `diff` of an `n`-element series has `n - 1` entries. -/
theorem consecDiffs_length : ∀ l : List ℚ,
    (consecDiffs l).length = l.length - 1 := by
  intro l
  induction l with
  | nil => rfl
  | cons a t ih =>
    cases t with
    | nil => rfl
    | cons b r =>
      rw [consecDiffs, List.length_cons, ih]
      simp [List.length_cons]

/-- C7: the `sampling_rate` the packager writes equals
`round(1 / median(diff("Time")))` exactly when the table has a `"Time"`
column, at least two rows, and a positive median difference; in every
other case (missing `"Time"`, fewer than two rows, non-positive
median) it is 0. -/
theorem sampling_rate_characterization (df : DeviceTable)
    (dm : DeviceMeta)
    (hlen : ∀ ts, df.time = some ts → ts.length = df.nRows) :
    (∀ ts, df.time = some ts → 2 ≤ df.nRows →
        0 < median (consecDiffs ts) →
        (write_yq_folder df dm).sampling_rate =
          pyRound (1 / median (consecDiffs ts))) ∧
    (df.time = none → (write_yq_folder df dm).sampling_rate = 0) ∧
    (df.nRows < 2 → (write_yq_folder df dm).sampling_rate = 0) ∧
    (∀ ts, df.time = some ts → median (consecDiffs ts) ≤ 0 →
        (write_yq_folder df dm).sampling_rate = 0) := by
  have hw : (write_yq_folder df dm).sampling_rate =
      sampling_rate_guess df := rfl
  refine ⟨?_, ?_, ?_, ?_⟩
  · intro ts hts h2 hmed
    have hd : consecDiffs ts ≠ [] := by
      intro h
      have h1 := consecDiffs_length ts
      have h2' := hlen ts hts
      rw [h] at h1
      simp at h1
      omega
    rw [hw]
    simp only [sampling_rate_guess, hts]
    rw [if_pos (by omega : 1 < df.nRows), if_pos ⟨hd, hmed⟩]
  · intro h
    rw [hw]
    simp only [sampling_rate_guess, h]
  · intro h
    rw [hw]
    cases hts : df.time with
    | none => simp only [sampling_rate_guess, hts]
    | some ts =>
      simp only [sampling_rate_guess, hts]
      rw [if_neg (by omega)]
  · intro ts hts hmed
    rw [hw]
    simp only [sampling_rate_guess, hts]
    by_cases h1 : 1 < df.nRows
    · rw [if_pos h1, if_neg]
      intro hcon
      exact absurd hcon.2 (not_lt.mpr hmed)
    · rw [if_neg h1]

/-- C7 witness: a three-row table whose `"Time"` column steps by a
tenth of a second gets sampling rate `round(1 / median) = 10`. -/
theorem sampling_rate_witness :
    (write_yq_folder ⟨3, some [0, 1/10, 1/5]⟩
        ⟨"EmotiBit", "eb", none⟩).sampling_rate =
      pyRound (1 / median (consecDiffs [0, 1/10, 1/5])) ∧
    pyRound (1 / median (consecDiffs [0, 1/10, 1/5])) = 10 :=
  ⟨(sampling_rate_characterization ⟨3, some [0, 1/10, 1/5]⟩
      ⟨"EmotiBit", "eb", none⟩
      (fun ts h => by injection h with h; rw [← h]; rfl)).1
      [0, 1/10, 1/5] rfl (by norm_num) (by with_unfolding_all decide),
   by with_unfolding_all decide⟩

end EmotibitYQ
